import Mathlib

/-!
Verification development for the agentic workflow engine of the
ai-server-management repository.

The definitions below are a shallow embedding of `src/workflow_engine.py`
and `src/mcp_client.py`:

* Python dicts keyed by strings become ordered association lists
  (`List (String × _)`) with Python's insert-or-overwrite semantics
  (`dictInsert`); Python sets become lists used only through membership.
* The transport (socket, background listener thread, 5-second timeout) is
  abstracted into an environment: the list of frames the listener thread
  decodes, and, per task, the outcome of the `execute_command` round trip
  (a response, or an exception carrying a message).
* Wall-clock readings (`time.time()`, timestamps) are supplied by the
  environment; elapsed times are rationals.
* Python's `round(x, 1)` (round half to even) is modelled exactly on `ℚ`
  by `pyRound1`.
* `execute_workflow` stores `asdict(result)`, and `dataclasses.asdict`
  deep-copies the `WorkflowStatus` Enum member unchanged, so the summary
  generator's comparisons `r["status"] == WorkflowStatus.COMPLETED.value`
  compare an Enum member against a string. Python's dynamic `==` between
  values of different runtime types is modelled by `pyEq` on a tagged
  value type; such a comparison is never true.
* The `while True` scheduler loop of `execute_workflow` is fuel-indexed;
  the fuel `tasks.length + 1` is provably enough for the loop to exit
  through one of its `break`s (`execute_loop_exit`).
* The `try/except` wrapper of `execute_workflow` is modelled by a fault
  flag in the environment (an unexpected exception in the audit-store call
  made right after a task result is recorded); the loop reports whether a
  fault occurred and `execute_workflow` then takes the source's `except`
  branch.
-/

namespace AiServerMgmt

/-! ## Data model (`workflow_engine.py`, enums and dataclasses) -/

/-- Workflow status enum (`WorkflowStatus`). -/
inductive WorkflowStatus where
  | pending
  | running
  | completed
  | failed
  | paused
deriving DecidableEq, Repr

/-- The `.value` of a `WorkflowStatus` member. -/
def WorkflowStatus.value : WorkflowStatus → String
  | .pending => "pending"
  | .running => "running"
  | .completed => "completed"
  | .failed => "failed"
  | .paused => "paused"

/-- Task type enum (`TaskType`). -/
inductive TaskType where
  | diagnostic
  | remediation
  | monitoring
  | analysis
deriving DecidableEq, Repr

/-- The `WorkflowTask` dataclass. `dependencies`/`conditions` default to
empty, as `__post_init__` normalises `None` to `[]`/`{}`. -/
structure WorkflowTask where
  id : String
  type : TaskType
  name : String
  description : String
  command : Option String := none
  expected_output : Option String := none
  retry_count : Nat := 0
  max_retries : Nat := 3
  timeout : Nat := 30
  dependencies : List String := []
  conditions : List (String × String) := []
deriving DecidableEq, Repr

/-- The `WorkflowResult` dataclass. -/
structure WorkflowResult where
  task_id : String
  status : WorkflowStatus
  output : String
  error : Option String := none
  execution_time : ℚ := 0
  timestamp : String := ""
deriving DecidableEq, Repr

/-! ## Transport (`mcp_client.py`) -/

/-- A decoded JSON frame: an ordered object with string-valued fields
(the fields the core protocol reads are all strings). -/
abbrev Frame := List (String × String)

/-- True when the frame object carries the given key. -/
def Frame.hasKey (f : Frame) (k : String) : Bool :=
  (f.lookup k).isSome

/-- The `_listen_for_messages` thread, applied to the frames it decodes in
order: every frame carrying a `response_to` key is put on the response
queue, all other frames only reach the (never-read) message queue. -/
def listen_responses (inbound : List Frame) : List Frame :=
  inbound.filter (fun m => m.hasKey "response_to")

/-- The `send_message` call: `None` when not connected; otherwise the
message is written and the caller blocks on `response_queue.get(timeout=5)`
— it receives the first frame the listener ever queues, and `None` (the
caught `queue.Empty` timeout) when the listener never queues one. -/
def send_message (connected : Bool) (inbound : List Frame) (message : Frame) :
    Option Frame :=
  if connected then (listen_responses inbound).head? else none

/-- The request frame built by `MCPClient.execute_command`. -/
def execute_command_msg (server_id command : String) : Frame :=
  [("type", "EXECUTE_COMMAND"), ("server_id", server_id), ("command", command)]

/-- The request frame built by `MCPClient.get_server_status`. -/
def get_server_status_msg (server_id : String) : Frame :=
  [("type", "GET_SERVER_STATUS"), ("server_id", server_id)]

/-! ## Single-task execution (`WorkflowEngine._execute_task`) -/

/-- Outcome of one `execute_command` round trip as seen by
`_execute_task`: either the call raises an exception with some message, or
it returns a response (`none` models Python `None`, a missing response). -/
inductive TransportOutcome where
  | raises (msg : String)
  | responds (resp : Option Frame)
deriving DecidableEq, Repr

/-- Environment for one task execution: transport outcome, the elapsed
time measured between the two `time.time()` readings, the timestamp the
result dataclass records, and whether the audit-store call made by the
scheduler right after recording this task's result raises unexpectedly. -/
structure StepEnv where
  outcome : TransportOutcome
  elapsed : ℚ := 0
  now : String := ""
  storeFault : Bool := false
deriving DecidableEq, Repr

/-- Python truthiness test `response and "status" in response`: the
response is not `None`, not the empty object, and has a `status` key. -/
def responseValid : Option Frame → Bool
  | none => false
  | some r => !r.isEmpty && r.hasKey "status"

/-- The summary output `str(response.get("output", ""))` taken on the
valid-response branch (where the response is known to be `some`). -/
def responseOutput : Option Frame → String
  | none => ""
  | some r => (r.lookup "output").getD ""

/-- `_execute_task`: runs the task's command through the client, converts
the three outcomes (exception, valid response, missing/invalid response)
into a `WorkflowResult`, measuring elapsed time on every path. -/
def execute_task (st : StepEnv) (task : WorkflowTask) : WorkflowResult :=
  match st.outcome with
  | .raises msg =>
      { task_id := task.id, status := .failed, output := "",
        error := some msg, execution_time := st.elapsed, timestamp := st.now }
  | .responds resp =>
      if responseValid resp then
        { task_id := task.id, status := .completed,
          output := responseOutput resp,
          execution_time := st.elapsed, timestamp := st.now }
      else
        { task_id := task.id, status := .failed, output := "",
          error := some "No valid response from MCP client",
          execution_time := st.elapsed, timestamp := st.now }

/-! ## Workflow templates (`WorkflowTemplate`) -/

/-- Template `WorkflowTemplate.web_server_diagnostic`. -/
def web_server_diagnostic : List WorkflowTask :=
  [ { id := "check_service_status", type := .diagnostic,
      name := "Check Web Server Status",
      description := "Verify if web server process is running",
      command := some "systemctl status apache2 nginx" },
    { id := "check_ports", type := .diagnostic,
      name := "Check Port Availability",
      description := "Verify web server ports are listening",
      command := some "netstat -tlnp | grep \x27:80\\|:443\x27",
      dependencies := ["check_service_status"] },
    { id := "check_logs", type := .analysis,
      name := "Analyze Error Logs",
      description := "Review recent error logs for issues",
      command := some "tail -n 50 /var/log/apache2/error.log /var/log/nginx/error.log",
      dependencies := ["check_service_status"] },
    { id := "test_connectivity", type := .diagnostic,
      name := "Test Web Connectivity",
      description := "Test HTTP/HTTPS connectivity",
      command := some "curl -I localhost && curl -Ik https://localhost",
      dependencies := ["check_ports"] } ]

/-- Template `WorkflowTemplate.system_health_check`. -/
def system_health_check : List WorkflowTask :=
  [ { id := "check_disk_space", type := .monitoring,
      name := "Check Disk Usage",
      description := "Monitor disk space across all partitions",
      command := some "df -h" },
    { id := "check_memory", type := .monitoring,
      name := "Check Memory Usage",
      description := "Monitor system memory and swap usage",
      command := some "free -h && ps aux --sort=-%mem | head -10" },
    { id := "check_cpu", type := .monitoring,
      name := "Check CPU Usage",
      description := "Monitor CPU usage and load average",
      command := some "top -bn1 | head -20 && uptime" },
    { id := "check_processes", type := .analysis,
      name := "Analyze Running Processes",
      description := "Review critical system processes",
      command := some "ps aux | grep -E \x27ssh|cron|systemd\x27 | head -10",
      dependencies := ["check_cpu"] } ]

/-- Template `WorkflowTemplate.security_audit`. -/
def security_audit : List WorkflowTask :=
  [ { id := "check_failed_logins", type := .analysis,
      name := "Check Failed Login Attempts",
      description := "Review authentication failures",
      command := some "journalctl -u ssh --since=\x271 hour ago\x27 | grep -i failed" },
    { id := "check_open_ports", type := .diagnostic,
      name := "Scan Open Ports",
      description := "List all listening network services",
      command := some "netstat -tlnp" },
    { id := "check_updates", type := .monitoring,
      name := "Check Security Updates",
      description := "Review available security patches",
      command := some "apt list --upgradable 2>/dev/null | grep -i security || yum check-update --security" } ]

/-! ## Engine state and dict semantics -/

/-- Python-dict insertion on an ordered association list: overwriting an
existing key keeps its position, a new key is appended at the end. -/
def dictInsert {α : Type} : List (String × α) → String → α → List (String × α)
  | [], k, v => [(k, v)]
  | (k0, v0) :: rest, k, v =>
      if k0 = k then (k, v) :: rest else (k0, v0) :: dictInsert rest k v

/-- Key sequence of an ordered association list. -/
def keysOf {α : Type} (l : List (String × α)) : List String :=
  l.map Prod.fst

/-- One workflow instance: the mutable dict built by `create_workflow`. -/
structure Workflow where
  id : String
  server_id : String
  template : String
  status : WorkflowStatus
  tasks : List (String × WorkflowTask)
  results : List (String × WorkflowResult)
  created_at : String
  current_task : Option String
deriving DecidableEq, Repr

/-- Engine state: the `active_workflows` registry (`WorkflowEngine`). -/
structure WorkflowEngine where
  active_workflows : List (String × Workflow) := []
deriving DecidableEq, Repr

/-- The `template_map` lookup inside `create_workflow`. -/
def templateMap (template_name : String) : Option (List WorkflowTask) :=
  if template_name = "web_server_diagnostic" then some web_server_diagnostic
  else if template_name = "system_health_check" then some system_health_check
  else if template_name = "security_audit" then some security_audit
  else none

/-- The dict comprehension `{task.id: task for task in tasks}`. -/
def taskMapOf (tasks : List WorkflowTask) : List (String × WorkflowTask) :=
  tasks.foldl (fun acc task => dictInsert acc task.id task) []

/-- `create_workflow`: looks up the template, returns `False` (engine
untouched) when unknown, otherwise registers a fresh pending instance
under the id, overwriting any instance already there. `now` is the
`datetime.now(timezone.utc).isoformat()` reading. -/
def create_workflow (now : String) (engine : WorkflowEngine)
    (workflow_id server_id template_name : String) : Bool × WorkflowEngine :=
  match templateMap template_name with
  | none => (false, engine)
  | some tasks =>
      let wf : Workflow :=
        { id := workflow_id, server_id := server_id, template := template_name,
          status := .pending, tasks := taskMapOf tasks, results := [],
          created_at := now, current_task := none }
      (true, { engine with
               active_workflows := dictInsert engine.active_workflows workflow_id wf })

/-- Projection returned by `list_active_workflows` for one instance. -/
structure WorkflowProjection where
  id : String
  server_id : String
  template : String
  status : String
  current_task : Option String
  created_at : String
deriving DecidableEq, Repr

/-- `list_active_workflows`. -/
def list_active_workflows (engine : WorkflowEngine) : List WorkflowProjection :=
  engine.active_workflows.map (fun p =>
    { id := p.2.id, server_id := p.2.server_id, template := p.2.template,
      status := p.2.status.value, current_task := p.2.current_task,
      created_at := p.2.created_at })

/-! ## Scheduler (`execute_workflow` and helpers) -/

/-- `_find_next_task`: first task, in dict insertion order, that has not
executed and whose dependencies have all executed. -/
def find_next_task (tasks : List (String × WorkflowTask)) (executed : List String) :
    Option WorkflowTask :=
  match tasks with
  | [] => none
  | (task_id, task) :: rest =>
      if task_id ∈ executed then find_next_task rest executed
      else if ∀ dep ∈ task.dependencies, dep ∈ executed then some task
      else find_next_task rest executed

/-- State carried out of the `while True` loop of `execute_workflow`:
the results and executed-set dicts, the `current_task` pointer, and
whether an unexpected internal exception aborted the loop. -/
structure LoopState where
  results : List (String × WorkflowResult)
  executed : List String
  current_task : Option String
  fault : Bool
deriving DecidableEq, Repr

/-- The scheduler loop body, fuel-indexed. Each iteration selects the next
eligible task, points `current_task` at it, executes it, records the
result, adds it to the executed set, then (the audit-store call being the
loop's only fault point) either faults, breaks on a failed diagnostic
task, or continues. -/
def execute_loop (env : String → StepEnv) (tasks : List (String × WorkflowTask)) :
    Nat → List (String × WorkflowResult) → List String → Option String → LoopState
  | 0, results, executed, cur => ⟨results, executed, cur, false⟩
  | fuel + 1, results, executed, cur =>
      match find_next_task tasks executed with
      | none => ⟨results, executed, cur, false⟩
      | some task =>
          let st := env task.id
          let r := execute_task st task
          let results1 := dictInsert results task.id r
          let executed1 := if task.id ∈ executed then executed else executed ++ [task.id]
          if st.storeFault then ⟨results1, executed1, some task.id, true⟩
          else if r.status = .failed ∧ task.type = .diagnostic then
            ⟨results1, executed1, some task.id, false⟩
          else execute_loop env tasks fuel results1 executed1 (some task.id)

/-- Round half to even on an integer boundary, as Python's `round`. -/
def roundHalfEven (q : ℚ) : ℤ :=
  let f := ⌊q⌋
  let r := q - f
  if r < 1 / 2 then f
  else if 1 / 2 < r then f + 1
  else if f % 2 = 0 then f else f + 1

/-- Python's `round(x, 1)`: round to one decimal place, half to even. -/
def pyRound1 (q : ℚ) : ℚ :=
  (roundHalfEven (q * 10) : ℚ) / 10

/-- Test whether the first character list begins with the second. -/
def charsBeginWith : List Char → List Char → Bool
  | _, [] => true
  | [], _ :: _ => false
  | c :: s, d :: sub => (c == d) && charsBeginWith s sub

/-- Substring test on character lists. -/
def charsContainSub : List Char → List Char → Bool
  | _, [] => true
  | [], _ :: _ => false
  | c :: t, sub => charsBeginWith (c :: t) sub || charsContainSub t sub

/-- Python's `sub in s` substring test. -/
def strContainsSub (s sub : String) : Bool :=
  charsContainSub s.toList sub.toList

/-- A Python runtime value as it appears in a stored result dict's
`status` slot or in the comparison literals of the summary code: either
the `WorkflowStatus` Enum member that `dataclasses.asdict` deep-copied
unchanged, or a plain string such as `WorkflowStatus.COMPLETED.value`. -/
inductive PyVal where
  | enumStatus (s : WorkflowStatus)
  | str (v : String)
deriving DecidableEq, Repr

/-- Python's dynamic `==` on such values: equal only when the runtime
types agree and the payloads are equal; an Enum member never equals a
string. -/
def pyEq : PyVal → PyVal → Bool
  | .enumStatus a, .enumStatus b => a = b
  | .str a, .str b => a = b
  | _, _ => false

/-- `_generate_recommendations`: the source's `result["status"] ==
WorkflowStatus.FAILED.value` compares the asdict-preserved Enum member to
a string (`pyEq`), so the CRITICAL branch never fires; a WARNING line is
emitted per monitoring task whose output contains "error" (lower-cased),
else a single healthy line. -/
def generate_recommendations (wf : Workflow) : List String :=
  let recs := wf.results.foldl (fun acc p =>
    match wf.tasks.lookup p.1 with
    | none => acc
    | some task =>
        if pyEq (PyVal.enumStatus p.2.status) (PyVal.str WorkflowStatus.failed.value) then
          acc ++ [s!"CRITICAL: {task.name} failed - investigate {task.description}"]
        else if task.type = .monitoring ∧ strContainsSub p.2.output.toLower "error" then
          acc ++ [s!"WARNING: {task.name} detected issues - review output"]
        else acc) []
  if recs.isEmpty then
    ["All diagnostic tasks completed successfully - system appears healthy"]
  else recs

/-- The summary dict built by `_generate_workflow_summary`. -/
structure WorkflowSummary where
  workflow_id : String
  server_id : String
  template : String
  status : String
  total_tasks : Nat
  completed : Nat
  failed : Nat
  success_rate : ℚ
  results : List (String × WorkflowResult)
  recommendations : List String
deriving DecidableEq, Repr

/-- `_generate_workflow_summary`: counts `len(workflow["tasks"])` as the
total, counts completed/failed by comparing each stored result's
asdict-preserved Enum member against the enum's string value (`pyEq`, so
both counts are in fact always zero), and computes the success rate from
those two numbers. -/
def generate_workflow_summary (wf : Workflow) : WorkflowSummary :=
  let total_tasks := wf.tasks.length
  let completed_tasks :=
    (wf.results.filter (fun p =>
      pyEq (PyVal.enumStatus p.2.status) (PyVal.str WorkflowStatus.completed.value))).length
  let failed_tasks :=
    (wf.results.filter (fun p =>
      pyEq (PyVal.enumStatus p.2.status) (PyVal.str WorkflowStatus.failed.value))).length
  { workflow_id := wf.id, server_id := wf.server_id, template := wf.template,
    status := wf.status.value,
    total_tasks := total_tasks, completed := completed_tasks, failed := failed_tasks,
    success_rate :=
      if total_tasks > 0 then
        pyRound1 ((completed_tasks : ℚ) / (total_tasks : ℚ) * 100)
      else 0,
    results := wf.results,
    recommendations := generate_recommendations wf }

/-- Return value of `execute_workflow`: the not-found error dict or the
summary dict. -/
inductive ExecuteOutput where
  | error (msg : String)
  | summary (s : WorkflowSummary)
deriving DecidableEq, Repr

/-- The body of `execute_workflow` once the instance is found: mark it
running, drain the loop (starting from the stored results and an empty
executed set, with fuel `tasks.length + 1`, enough for every `break` to be
reached), then take the source's normal path (status `completed`,
`current_task` cleared) or, on an internal fault, the `except` branch
(status `failed`, `current_task` left as the loop last set it). -/
def run_workflow (env : String → StepEnv) (wf : Workflow) : Workflow :=
  let running := { wf with status := WorkflowStatus.running }
  let final := execute_loop env running.tasks (running.tasks.length + 1)
    running.results [] running.current_task
  if final.fault then
    { running with results := final.results,
                   current_task := final.current_task,
                   status := WorkflowStatus.failed }
  else
    { running with results := final.results,
                   current_task := none,
                   status := WorkflowStatus.completed }

/-- `execute_workflow`: not-found error for unknown ids; otherwise run the
scheduler on the instance, store the mutated instance back and return its
summary. -/
def execute_workflow (env : String → StepEnv) (engine : WorkflowEngine)
    (workflow_id : String) : ExecuteOutput × WorkflowEngine :=
  match engine.active_workflows.lookup workflow_id with
  | none => (.error "Workflow not found", engine)
  | some wf =>
      let wf2 := run_workflow env wf
      let engine2 := { engine with
        active_workflows := dictInsert engine.active_workflows workflow_id wf2 }
      (.summary (generate_workflow_summary wf2), engine2)

/-! ## Statement predicates -/

/-- Dependencies of the task registered under key `k`, empty when no task
is registered there. -/
def depsOfKey (tasks : List (String × WorkflowTask)) (k : String) : List String :=
  match tasks.lookup k with
  | some t => t.dependencies
  | none => []

/-- Dependency ordering over a results list read as a chronology: every
dependency of the task of the `i`-th recorded result already has a result
among the first `i` entries. -/
def depOrdered (tasks : List (String × WorkflowTask))
    (results : List (String × WorkflowResult)) : Prop :=
  ∀ i : Fin results.length, ∀ dep ∈ depsOfKey tasks (results.get i).1,
    dep ∈ keysOf (results.take i)

/-- A recorded result entry that is failed and whose task (as registered
in the task map) is of diagnostic type. -/
def isFailDiag (tasks : List (String × WorkflowTask))
    (p : String × WorkflowResult) : Bool :=
  match tasks.lookup p.1 with
  | some t =>
      decide (p.2.status = WorkflowStatus.failed) && decide (t.type = TaskType.diagnostic)
  | none => false

/-- Extract the summary payload of an `execute_workflow` return value. -/
def summaryOf : ExecuteOutput → Option WorkflowSummary
  | .summary s => some s
  | .error _ => none

/-! ## The scheduler-loop invariant -/

/-- Invariant carried through the scheduler loop: the executed set and the
results dict record the same ids, the results dict has pairwise-distinct
keys, it is dependency-ordered, and every recorded status is `completed`
or `failed`. -/
structure LoopInv (tasks : List (String × WorkflowTask))
    (results : List (String × WorkflowResult)) (executed : List String) : Prop where
  match_mem : ∀ x, x ∈ executed ↔ x ∈ keysOf results
  nodup : (keysOf results).Nodup
  ordered : depOrdered tasks results
  statuses : ∀ p ∈ results,
    p.2.status = WorkflowStatus.completed ∨ p.2.status = WorkflowStatus.failed

/-- Number of task-map keys not yet executed: the loop's variant. -/
def countNew (tasks : List (String × WorkflowTask)) (executed : List String) : Nat :=
  ((keysOf tasks).filter (fun k => decide (k ∉ executed))).length


/-- Everything the claims need about a finished scheduler loop: the
invariant still holds, failed-diagnostic entries sit only at the end of
the results chronology, a fault-free environment produces no fault, a
fault leaves `current_task` on a recorded task, and with enough fuel the
loop ended through one of its `break`s. -/
structure LoopOut (env : String → StepEnv) (tasks : List (String × WorkflowTask))
    (executed0 : List String) (fuel : Nat) (out : LoopState) : Prop where
  inv : LoopInv tasks out.results out.executed
  failDiagLast : ∀ i : Fin out.results.length, (i : ℕ) + 1 < out.results.length →
    isFailDiag tasks (out.results.get i) = false
  noFault : (∀ s, (env s).storeFault = false) → out.fault = false
  faultCur : out.fault = true → ∃ k, out.current_task = some k ∧ k ∈ keysOf out.results
  exitBreak : countNew tasks executed0 < fuel →
    out.fault = true ∨ (∃ p ∈ out.results, isFailDiag tasks p = true) ∨
      find_next_task tasks out.executed = none


/-! ## Concrete example inputs used by the witnesses -/

/-- Fixed creation timestamp for the examples. -/
def egNow : String := "2026-10-12T00:00:00+00:00"

/-- Engine holding one freshly created web-server-diagnostic workflow. -/
def egEngine : WorkflowEngine :=
  (create_workflow egNow {} "wf1" "srv1" "web_server_diagnostic").2

/-- The instance `create_workflow` registers in `egEngine`. -/
def egWf : Workflow :=
  { id := "wf1", server_id := "srv1", template := "web_server_diagnostic",
    status := .pending, tasks := taskMapOf web_server_diagnostic,
    results := [], created_at := egNow, current_task := none }

/-- Transport environment in which every command succeeds. -/
def egOkEnv : String → StepEnv := fun _ =>
  { outcome := .responds (some [("response_to", "EXECUTE_COMMAND"),
      ("status", "ok"), ("output", "all good")]), elapsed := 1, now := egNow }

/-- Environment in which the first diagnostic task gets no response. -/
def egFailFirstEnv : String → StepEnv := fun id =>
  if id = "check_service_status" then
    { outcome := .responds none, elapsed := 1, now := egNow }
  else
    { outcome := .responds (some [("status", "ok"), ("output", "fine")]),
      elapsed := 1, now := egNow }

/-- Environment in which the audit store raises during the first task. -/
def egFaultEnv : String → StepEnv := fun id =>
  if id = "check_service_status" then
    { outcome := .responds (some [("status", "ok"), ("output", "up")]),
      elapsed := 1, now := egNow, storeFault := true }
  else
    { outcome := .responds (some [("status", "ok"), ("output", "fine")]),
      elapsed := 1, now := egNow }

/-- The instance stored back after a fully successful run. -/
def egWf2 : Workflow :=
  ((execute_workflow egOkEnv egEngine "wf1").2.active_workflows.lookup "wf1").getD egWf

/-- The instance stored back after an internally faulting run. -/
def egWfFault : Workflow :=
  ((execute_workflow egFaultEnv egEngine "wf1").2.active_workflows.lookup "wf1").getD egWf

/-- The summary returned by the fully successful run. -/
def egSummary : WorkflowSummary :=
  (summaryOf (execute_workflow egOkEnv egEngine "wf1").1).getD
    (generate_workflow_summary egWf)

/-- A small stand-alone diagnostic task. -/
def egTask : WorkflowTask :=
  { id := "t1", type := .diagnostic, name := "Check", description := "check something" }

/-- A stray response frame correlated to a different request type. -/
def egStrayFrame : Frame :=
  [("response_to", "GET_SERVER_STATUS"), ("status", "ok")]

/-- A response whose `status` value is the string `"error"`. -/
def egErrStatusResp : Frame := [("status", "error"), ("output", "oops")]

/-- Step environment delivering `egErrStatusResp`. -/
def egStepRespond : StepEnv :=
  { outcome := .responds (some egErrStatusResp), elapsed := 2, now := "t" }

/-- Step environment delivering no response at all. -/
def egStepNone : StepEnv := { outcome := .responds none, elapsed := 3, now := "t" }

/-- Step environment in which the transport raises. -/
def egStepRaise : StepEnv :=
  { outcome := .raises "Connection refused", elapsed := 5, now := "t" }

/-! ## Association-list lemmas -/

theorem keysOf_cons {α : Type} (p : String × α) (l : List (String × α)) :
    keysOf (p :: l) = p.1 :: keysOf l := rfl

theorem keysOf_append {α : Type} (l1 l2 : List (String × α)) :
    keysOf (l1 ++ l2) = keysOf l1 ++ keysOf l2 := by
  simp [keysOf]

theorem lookup_eq_none_of_not_mem {α : Type} {l : List (String × α)} {k : String}
    (h : k ∉ keysOf l) : l.lookup k = none := by
  induction l with
  | nil => rfl
  | cons p rest ih =>
      rw [keysOf_cons, List.mem_cons, not_or] at h
      have hne : (k == p.1) = false := beq_eq_false_iff_ne.mpr h.1
      simpa [List.lookup, hne] using ih h.2

theorem dictInsert_of_not_mem {α : Type} {l : List (String × α)} {k : String}
    (v : α) (h : k ∉ keysOf l) : dictInsert l k v = l ++ [(k, v)] := by
  induction l with
  | nil => rfl
  | cons p rest ih =>
      rw [keysOf_cons, List.mem_cons, not_or] at h
      simp only [dictInsert]
      rw [if_neg (fun hk => h.1 hk.symm)]
      simp [ih h.2]

theorem lookup_dictInsert_self {α : Type} (l : List (String × α)) (k : String) (v : α) :
    (dictInsert l k v).lookup k = some v := by
  induction l with
  | nil => simp [dictInsert, List.lookup]
  | cons p rest ih =>
      by_cases hk : p.1 = k
      · simp [dictInsert, hk, List.lookup]
      · simp only [dictInsert]
        rw [if_neg hk]
        have hne : (k == p.1) = false := beq_eq_false_iff_ne.mpr (fun hkk => hk hkk.symm)
        simpa [List.lookup, hne] using ih

theorem mem_keysOf_of_mem {α : Type} {l : List (String × α)} {k : String} {v : α}
    (h : (k, v) ∈ l) : k ∈ keysOf l := by
  simpa [keysOf] using List.mem_map_of_mem Prod.fst h

theorem mem_lookup_of_nodup {α : Type} {l : List (String × α)}
    (hnd : (keysOf l).Nodup) {k : String} {v : α} (h : (k, v) ∈ l) :
    l.lookup k = some v := by
  induction l with
  | nil => cases h
  | cons p rest ih =>
      rw [keysOf_cons, List.nodup_cons] at hnd
      rcases List.mem_cons.mp h with h1 | h1
      · subst h1
        simp [List.lookup]
      · have hkne : k ≠ p.1 := by
          intro hkeq
          exact hnd.1 (hkeq ▸ mem_keysOf_of_mem h1)
        have hne : (k == p.1) = false := beq_eq_false_iff_ne.mpr hkne
        simpa [List.lookup, hne] using ih hnd.2 h1

/-! ## Lemmas about `find_next_task` -/

theorem find_next_task_spec {tasks : List (String × WorkflowTask)} {executed : List String}
    {t : WorkflowTask} (h : find_next_task tasks executed = some t) :
    ∃ k, (k, t) ∈ tasks ∧ k ∉ executed ∧ ∀ dep ∈ t.dependencies, dep ∈ executed := by
  induction tasks with
  | nil => simp [find_next_task] at h
  | cons p rest ih =>
      simp only [find_next_task] at h
      by_cases h1 : p.1 ∈ executed
      · rw [if_pos h1] at h
        obtain ⟨k, hk1, hk2, hk3⟩ := ih h
        exact ⟨k, List.mem_cons_of_mem _ hk1, hk2, hk3⟩
      · rw [if_neg h1] at h
        by_cases h2 : ∀ dep ∈ p.2.dependencies, dep ∈ executed
        · rw [if_pos h2] at h
          cases h
          exact ⟨p.1, by simp, h1, h2⟩
        · rw [if_neg h2] at h
          obtain ⟨k, hk1, hk2, hk3⟩ := ih h
          exact ⟨k, List.mem_cons_of_mem _ hk1, hk2, hk3⟩

theorem find_next_task_congr {tasks : List (String × WorkflowTask)}
    {e1 e2 : List String} (h : ∀ x, x ∈ e1 ↔ x ∈ e2) :
    find_next_task tasks e1 = find_next_task tasks e2 := by
  induction tasks with
  | nil => rfl
  | cons p rest ih =>
      simp only [find_next_task]
      by_cases h1 : p.1 ∈ e1
      · rw [if_pos h1, if_pos ((h p.1).mp h1), ih]
      · rw [if_neg h1, if_neg (fun hx => h1 ((h p.1).mpr hx))]
        by_cases h2 : ∀ dep ∈ p.2.dependencies, dep ∈ e1
        · rw [if_pos h2, if_pos (fun dep hd => (h dep).mp (h2 dep hd))]
        · rw [if_neg h2, if_neg (fun hx => h2 (fun dep hd => (h dep).mpr (hx dep hd))), ih]

/-! ## Lemmas about single-task execution -/

theorem execute_task_status (st : StepEnv) (task : WorkflowTask) :
    (execute_task st task).status = WorkflowStatus.completed ∨
      (execute_task st task).status = WorkflowStatus.failed := by
  cases hst : st.outcome with
  | raises msg => simp [execute_task, hst]
  | responds resp =>
      by_cases h : responseValid resp = true <;> simp [execute_task, hst, h]

theorem execute_task_time (st : StepEnv) (task : WorkflowTask) :
    (execute_task st task).execution_time = st.elapsed := by
  cases hst : st.outcome with
  | raises msg => simp [execute_task, hst]
  | responds resp =>
      by_cases h : responseValid resp = true <;> simp [execute_task, hst, h]

theorem mem_keysOf_dictInsert {α : Type} (l : List (String × α)) (k : String) (v : α) :
    k ∈ keysOf (dictInsert l k v) := by
  induction l with
  | nil => simp [dictInsert, keysOf]
  | cons p rest ih =>
      by_cases hk : p.1 = k
      · simp [dictInsert, hk, keysOf_cons]
      · simp only [dictInsert]
        rw [if_neg hk, keysOf_cons]
        exact List.mem_cons_of_mem _ ih

theorem countNew_lt (tasks : List (String × WorkflowTask)) {executed : List String}
    {k : String} (hkmem : k ∈ keysOf tasks) (hknot : k ∉ executed) :
    countNew tasks (executed ++ [k]) < countNew tasks executed := by
  have hsub : ∀ x : String, decide (x ∉ executed ++ [k]) =
      (decide (x ≠ k) && decide (x ∉ executed)) := by
    intro x
    by_cases h1 : x = k
    · subst h1; simp
    · by_cases h2 : x ∈ executed <;> simp [h1, h2]
  unfold countNew
  calc ((keysOf tasks).filter (fun x => decide (x ∉ executed ++ [k]))).length
      = (((keysOf tasks).filter (fun x => decide (x ∉ executed))).filter
          (fun x => decide (x ≠ k))).length := by
        rw [List.filter_filter]
        exact congrArg List.length (List.filter_congr (fun x _ => (hsub x).symm)).symm
    _ < ((keysOf tasks).filter (fun x => decide (x ∉ executed))).length := by
        set m := (keysOf tasks).filter (fun x => decide (x ∉ executed)) with hm
        have hkm : k ∈ m := List.mem_filter.mpr ⟨hkmem, by simpa using hknot⟩
        have hlen := @List.length_eq_length_filter_add _ m (fun x => decide (x ≠ k))
        have hpos : 0 < (m.filter (fun x => !decide (x ≠ k))).length := by
          apply List.length_pos_of_mem
          exact List.mem_filter.mpr ⟨hkm, by simp⟩
        omega

theorem loop_step {tasks : List (String × WorkflowTask)} {executed : List String}
    {task : WorkflowTask}
    (hwf : ∀ p ∈ tasks, p.2.id = p.1) (hnd : (keysOf tasks).Nodup)
    (hfind : find_next_task tasks executed = some task)
    {results : List (String × WorkflowResult)}
    (hinv : LoopInv tasks results executed) (r : WorkflowResult)
    (hstat : r.status = WorkflowStatus.completed ∨ r.status = WorkflowStatus.failed) :
    task.id ∉ executed ∧ (task.id, task) ∈ tasks ∧
    tasks.lookup task.id = some task ∧
    (∀ dep ∈ task.dependencies, dep ∈ executed) ∧
    dictInsert results task.id r = results ++ [(task.id, r)] ∧
    LoopInv tasks (results ++ [(task.id, r)]) (executed ++ [task.id]) := by
  obtain ⟨k, hk1, hk2, hk3⟩ := find_next_task_spec hfind
  have hid : task.id = k := hwf (k, task) hk1
  rw [← hid] at hk1 hk2
  have hnotk : task.id ∉ keysOf results := fun hm => hk2 ((hinv.match_mem task.id).mpr hm)
  have hlk : tasks.lookup task.id = some task := mem_lookup_of_nodup hnd hk1
  have hins : dictInsert results task.id r = results ++ [(task.id, r)] :=
    dictInsert_of_not_mem r hnotk
  refine ⟨hk2, hk1, hlk, hk3, hins, ?_, ?_, ?_, ?_⟩
  · intro x
    rw [keysOf_append, show keysOf [(task.id, r)] = [task.id] from rfl]
    simp only [List.mem_append, List.mem_singleton]
    exact or_congr (hinv.match_mem x) Iff.rfl
  · rw [keysOf_append]
    rw [List.nodup_append]
    refine ⟨hinv.nodup, by simp [keysOf], ?_⟩
    intro a ha hb
    simp only [keysOf, List.map_cons, List.map_nil, List.mem_singleton] at hb
    exact hnotk (hb ▸ ha)
  · intro i dep hdep
    have hlen : (results ++ [(task.id, r)]).length = results.length + 1 := by simp
    by_cases hi : (i : ℕ) < results.length
    · have e1 : (results ++ [(task.id, r)]).get i = results.get ⟨i, hi⟩ := by
        simp [List.get_eq_getElem, List.getElem_append_left hi]
      have e2 : (results ++ [(task.id, r)]).take i = results.take i :=
        List.take_append_of_le_length (le_of_lt hi)
      rw [e1] at hdep
      rw [e2]
      exact hinv.ordered ⟨i, hi⟩ dep hdep
    · have hval := i.isLt
      simp only [List.length_append, List.length_singleton] at hval
      have hieq : (i : ℕ) = results.length := by omega
      have e1 : (results ++ [(task.id, r)]).get i = (task.id, r) := by
        simp only [List.get_eq_getElem]
        exact List.getElem_concat_length _ _ _ hieq _
      rw [e1] at hdep
      simp only [depsOfKey, hlk] at hdep
      have e2 : (results ++ [(task.id, r)]).take i = results := by
        rw [hieq]
        exact List.take_left _ _
      rw [e2]
      exact (hinv.match_mem dep).mp (hk3 dep hdep)
  · intro p hp
    rcases List.mem_append.mp hp with h | h
    · exact hinv.statuses p h
    · rw [List.mem_singleton] at h
      rw [h]
      exact hstat

theorem failDiagLast_append {tasks : List (String × WorkflowTask)}
    {results : List (String × WorkflowResult)}
    (hclean : ∀ p ∈ results, isFailDiag tasks p = false) (e : String × WorkflowResult) :
    ∀ i : Fin ((results ++ [e]).length), (i : ℕ) + 1 < (results ++ [e]).length →
      isFailDiag tasks ((results ++ [e]).get i) = false := by
  intro i hi
  simp only [List.length_append, List.length_singleton] at hi
  have hi2 : (i : ℕ) < results.length := by omega
  have e1 : (results ++ [e]).get i = results.get ⟨i, hi2⟩ := by
    simp [List.get_eq_getElem, List.getElem_append_left hi2]
  rw [e1]
  exact hclean _ (results.get_mem _ _)

theorem execute_loop_main (env : String → StepEnv) (tasks : List (String × WorkflowTask))
    (hwf : ∀ p ∈ tasks, p.2.id = p.1) (hnd : (keysOf tasks).Nodup) :
    ∀ (fuel : Nat) (results : List (String × WorkflowResult)) (executed : List String)
      (cur : Option String),
      LoopInv tasks results executed →
      (∀ p ∈ results, isFailDiag tasks p = false) →
      LoopOut env tasks executed fuel (execute_loop env tasks fuel results executed cur) := by
  intro fuel
  induction fuel with
  | zero =>
      intro results executed cur hinv hclean
      simp only [execute_loop]
      exact { inv := hinv,
              failDiagLast := fun i _ => hclean _ (List.get_mem _ _ _),
              noFault := fun _ => rfl,
              faultCur := (by intro h; cases h),
              exitBreak := fun h => absurd h (Nat.not_lt_zero _) }
  | succ n ih =>
      intro results executed cur hinv hclean
      cases hfind : find_next_task tasks executed with
      | none =>
          simp only [execute_loop, hfind]
          exact { inv := hinv,
                  failDiagLast := fun i _ => hclean _ (List.get_mem _ _ _),
                  noFault := fun _ => rfl,
                  faultCur := (by intro h; cases h),
                  exitBreak := fun _ => Or.inr (Or.inr hfind) }
      | some task =>
          obtain ⟨hnotexec, hmem, hlk, hdeps, hins, hinv1⟩ :=
            loop_step hwf hnd hfind hinv (execute_task (env task.id) task)
              (execute_task_status _ _)
          simp only [execute_loop, hfind, hins, if_neg hnotexec]
          by_cases hsf : (env task.id).storeFault = true
          · rw [if_pos hsf]
            refine { inv := hinv1,
                     failDiagLast := failDiagLast_append hclean _,
                     noFault := ?_, faultCur := ?_,
                     exitBreak := fun _ => Or.inl rfl }
            · intro hff
              exact absurd (hff task.id) (by simp [hsf])
            · intro _
              refine ⟨task.id, rfl, ?_⟩
              rw [keysOf_append]
              simp [keysOf]
          · rw [if_neg hsf]
            by_cases hbrk : (execute_task (env task.id) task).status = WorkflowStatus.failed ∧
                task.type = TaskType.diagnostic
            · rw [if_pos hbrk]
              refine { inv := hinv1,
                       failDiagLast := failDiagLast_append hclean _,
                       noFault := fun _ => rfl,
                       faultCur := (by intro h; cases h),
                       exitBreak := fun _ => Or.inr (Or.inl ?_) }
              refine ⟨(task.id, execute_task (env task.id) task), by simp, ?_⟩
              simp [isFailDiag, hlk, hbrk.1, hbrk.2]
            · rw [if_neg hbrk]
              have hclean1 : ∀ p ∈ results ++ [(task.id, execute_task (env task.id) task)],
                  isFailDiag tasks p = false := by
                intro p hp
                rcases List.mem_append.mp hp with h | h
                · exact hclean p h
                · rw [List.mem_singleton] at h
                  rw [h]
                  simp only [isFailDiag, hlk]
                  rw [Bool.and_eq_false_iff]
                  by_cases h1 : (execute_task (env task.id) task).status = WorkflowStatus.failed
                  · exact Or.inr (by simpa using fun h2 => hbrk ⟨h1, h2⟩)
                  · exact Or.inl (by simpa using h1)
              have hrec := ih (results ++ [(task.id, execute_task (env task.id) task)])
                (executed ++ [task.id]) (some task.id) hinv1 hclean1
              refine ⟨hrec.inv, hrec.failDiagLast, hrec.noFault, hrec.faultCur, ?_⟩
              intro hcnt
              apply hrec.exitBreak
              have hdec := countNew_lt tasks (mem_keysOf_of_mem hmem) hnotexec
              omega

/-! ## Well-formedness of created task maps -/

theorem dictInsert_pred {α : Type} (P : String × α → Prop) {l : List (String × α)}
    {k : String} {v : α} (hl : ∀ p ∈ l, P p) (hv : P (k, v)) :
    ∀ p ∈ dictInsert l k v, P p := by
  induction l with
  | nil =>
      intro p hp
      simp only [dictInsert, List.mem_singleton] at hp
      exact hp ▸ hv
  | cons q rest ih =>
      by_cases hk : q.1 = k
      · simp only [dictInsert, if_pos hk]
        intro p hp
        rcases List.mem_cons.mp hp with h | h
        · exact h ▸ hv
        · exact hl p (List.mem_cons_of_mem _ h)
      · simp only [dictInsert, if_neg hk]
        intro p hp
        rcases List.mem_cons.mp hp with h | h
        · exact h ▸ hl q (List.mem_cons_self _ _)
        · exact ih (fun p hp => hl p (List.mem_cons_of_mem _ hp)) p h

theorem mem_keysOf_dictInsert_iff {α : Type} {l : List (String × α)} {k x : String}
    {v : α} : x ∈ keysOf (dictInsert l k v) ↔ x = k ∨ x ∈ keysOf l := by
  induction l with
  | nil => simp [dictInsert, keysOf]
  | cons q rest ih =>
      by_cases hk : q.1 = k
      · simp only [dictInsert, if_pos hk, keysOf_cons, List.mem_cons]
        rw [hk]
        tauto
      · simp only [dictInsert, if_neg hk, keysOf_cons, List.mem_cons]
        rw [ih]
        tauto

theorem keysOf_dictInsert_nodup {α : Type} {l : List (String × α)} {k : String}
    {v : α} (h : (keysOf l).Nodup) : (keysOf (dictInsert l k v)).Nodup := by
  induction l with
  | nil => simp [dictInsert, keysOf]
  | cons q rest ih =>
      rw [keysOf_cons, List.nodup_cons] at h
      by_cases hk : q.1 = k
      · simp only [dictInsert, if_pos hk, keysOf_cons, List.nodup_cons]
        exact ⟨hk ▸ h.1, h.2⟩
      · simp only [dictInsert, if_neg hk, keysOf_cons, List.nodup_cons]
        refine ⟨?_, ih h.2⟩
        rw [mem_keysOf_dictInsert_iff]
        rintro (h1 | h1)
        · exact hk h1
        · exact h.1 h1

theorem taskMapOf_wf (tasks : List WorkflowTask) :
    ∀ p ∈ taskMapOf tasks, p.2.id = p.1 := by
  have main : ∀ (ts : List WorkflowTask) (acc : List (String × WorkflowTask)),
      (∀ p ∈ acc, p.2.id = p.1) →
      ∀ p ∈ ts.foldl (fun acc task => dictInsert acc task.id task) acc, p.2.id = p.1 := by
    intro ts
    induction ts with
    | nil => intro acc hacc; simpa using hacc
    | cons t rest ih =>
        intro acc hacc
        exact ih _ (dictInsert_pred _ hacc rfl)
  exact main tasks [] (by simp)

theorem taskMapOf_nodup (tasks : List WorkflowTask) :
    (keysOf (taskMapOf tasks)).Nodup := by
  have main : ∀ (ts : List WorkflowTask) (acc : List (String × WorkflowTask)),
      (keysOf acc).Nodup →
      (keysOf (ts.foldl (fun acc task => dictInsert acc task.id task) acc)).Nodup := by
    intro ts
    induction ts with
    | nil => intro acc hacc; simpa using hacc
    | cons t rest ih =>
        intro acc hacc
        exact ih _ (keysOf_dictInsert_nodup hacc)
  exact main tasks [] (by simp [keysOf])

theorem loopInv_empty (tasks : List (String × WorkflowTask)) :
    LoopInv tasks [] [] where
  match_mem := by intro x; simp [keysOf]
  nodup := by simp [keysOf]
  ordered := fun i => i.elim0
  statuses := by intro p hp; cases hp

/-! ## Behaviour of one full run (`run_workflow`) -/

theorem countNew_le (tasks : List (String × WorkflowTask)) :
    countNew tasks [] ≤ tasks.length := by
  calc countNew tasks [] ≤ (keysOf tasks).length := List.length_filter_le _ _
    _ = tasks.length := by simp [keysOf]

theorem run_workflow_out (env : String → StepEnv) (wf : Workflow)
    (hres : wf.results = [])
    (hwf : ∀ p ∈ wf.tasks, p.2.id = p.1) (hnd : (keysOf wf.tasks).Nodup) :
    (run_workflow env wf).tasks = wf.tasks ∧
    depOrdered wf.tasks (run_workflow env wf).results ∧
    (keysOf (run_workflow env wf).results).Nodup ∧
    (∀ p ∈ (run_workflow env wf).results,
        p.2.status = WorkflowStatus.completed ∨ p.2.status = WorkflowStatus.failed) ∧
    (∀ i : Fin (run_workflow env wf).results.length,
        (i : ℕ) + 1 < (run_workflow env wf).results.length →
        isFailDiag wf.tasks ((run_workflow env wf).results.get i) = false) ∧
    ((∀ s, (env s).storeFault = false) →
        (run_workflow env wf).status = WorkflowStatus.completed ∧
        (run_workflow env wf).current_task = none) ∧
    ((run_workflow env wf).status = WorkflowStatus.failed →
        ∃ k, (run_workflow env wf).current_task = some k ∧
          k ∈ keysOf (run_workflow env wf).results) ∧
    ((∀ s, (env s).storeFault = false) →
        (∀ p ∈ (run_workflow env wf).results, isFailDiag wf.tasks p = false) →
        find_next_task wf.tasks (keysOf (run_workflow env wf).results) = none) := by
  have hmain := execute_loop_main env wf.tasks hwf hnd (wf.tasks.length + 1)
    wf.results [] wf.current_task (hres ▸ loopInv_empty wf.tasks)
    (by rw [hres]; intro p hp; cases hp)
  set out := execute_loop env wf.tasks (wf.tasks.length + 1) wf.results [] wf.current_task
    with hout
  have hrw : run_workflow env wf =
      if out.fault then
        { wf with results := out.results, current_task := out.current_task,
                  status := WorkflowStatus.failed }
      else
        { wf with results := out.results, current_task := none,
                  status := WorkflowStatus.completed } := rfl
  have hcnt : countNew wf.tasks [] < wf.tasks.length + 1 :=
    Nat.lt_succ_of_le (countNew_le wf.tasks)
  by_cases hfault : out.fault = true
  · rw [hrw, if_pos hfault]
    obtain ⟨k, hk1, hk2⟩ := hmain.faultCur hfault
    refine ⟨rfl, hmain.inv.ordered, hmain.inv.nodup, hmain.inv.statuses,
      hmain.failDiagLast, ?_, ?_, ?_⟩
    · intro hff
      exact absurd (hmain.noFault hff) (by simp [hfault])
    · intro hst
      exact ⟨k, hk1, hk2⟩
    · intro hff _
      exact absurd (hmain.noFault hff) (by simp [hfault])
  · rw [hrw, if_neg hfault]
    refine ⟨rfl, hmain.inv.ordered, hmain.inv.nodup, hmain.inv.statuses,
      hmain.failDiagLast, ?_, ?_, ?_⟩
    · intro hff
      exact ⟨rfl, rfl⟩
    · intro h
      simp at h
    · intro hff hclean
      rcases hmain.exitBreak hcnt with h | h | h
      · exact absurd h hfault
      · obtain ⟨p, hp1, hp2⟩ := h
        exact absurd hp2 (by simp [hclean p hp1])
      · show find_next_task wf.tasks (keysOf out.results) = none
        rw [find_next_task_congr (fun x => (hmain.inv.match_mem x).symm)]
        exact h

theorem execute_workflow_found (env : String → StepEnv) {engine : WorkflowEngine}
    {wid : String} {wf : Workflow}
    (hlk : engine.active_workflows.lookup wid = some wf) :
    (execute_workflow env engine wid).1 =
        .summary (generate_workflow_summary (run_workflow env wf)) ∧
    (execute_workflow env engine wid).2.active_workflows.lookup wid =
        some (run_workflow env wf) := by
  constructor
  · simp only [execute_workflow, hlk]
  · simp only [execute_workflow, hlk]
    exact lookup_dictInsert_self _ _ _

/-! ## Summary counting -/

theorem pyEq_enum_str (s : WorkflowStatus) (v : String) :
    pyEq (PyVal.enumStatus s) (PyVal.str v) = false := rfl

theorem filter_pyEq_nil (l : List (String × WorkflowResult)) (v : String) :
    l.filter (fun p => pyEq (PyVal.enumStatus p.2.status) (PyVal.str v)) = [] :=
  List.filter_eq_nil_iff.mpr (fun p _ => by rw [pyEq_enum_str]; exact Bool.false_ne_true)

theorem run_workflow_tasks (env : String → StepEnv) (wf : Workflow) :
    (run_workflow env wf).tasks = wf.tasks := by
  simp only [run_workflow]
  split <;> rfl

theorem pyRound1_zero : pyRound1 0 = 0 := by
  simp [pyRound1, roundHalfEven]

/-! ## Generic lemma: head of a filtered list -/

theorem head_of_filter {α : Type} {p : α → Bool} {l : List α} {x : α}
    (h : (l.filter p).head? = some x) :
    p x = true ∧ ∃ pre post, l = pre ++ x :: post ∧ ∀ g ∈ pre, p g = false := by
  induction l with
  | nil => simp [List.filter] at h
  | cons a rest ih =>
      by_cases ha : p a = true
      · simp only [List.filter_cons, if_pos ha, List.head?_cons, Option.some.injEq] at h
        subst h
        exact ⟨ha, [], rest, rfl, by intro g hg; cases hg⟩
      · have ha2 : p a = false := by simpa using ha
        simp only [List.filter_cons, ha2, if_neg] at h
        rw [if_neg (by simp [ha2])] at h
        obtain ⟨hp, pre, post, heq, hpre⟩ := ih h
        refine ⟨hp, a :: pre, post, by rw [List.cons_append, heq], ?_⟩
        intro g hg
        rcases List.mem_cons.mp hg with h1 | h1
        · exact h1 ▸ ha2
        · exact hpre g h1

/-! ## Claim C1 — summary counts -/

/-- C1 counterexample: the claim says the summary total counts only tasks
with a recorded result and that `failed` counts the results with failed
status. Running the web-server-diagnostic workflow in an environment
where the first (diagnostic) task fails halts after one recorded result,
whose status is failed — yet the summary reports `total_tasks = 4`
(claim: 1) and `failed = 0` (claim: 1), because the source compares the
asdict-preserved Enum member against a string. -/
theorem C1_counterexample :
    ((summaryOf (execute_workflow egFailFirstEnv egEngine "wf1").1).map
        (fun s => (s.total_tasks, s.failed,
          (s.results.filter (fun p => p.2.status = WorkflowStatus.failed)).length,
          s.results.length))) = some (4, 0, 1, 1) ∧
    (4 : Nat) ≠ 1 ∧ (0 : Nat) ≠ 1 := by
  refine ⟨rfl, by decide, by decide⟩

/-- C1 (amended): at the end of `execute_workflow`, the summary's
`total_tasks` is the number of tasks in the task graph (tasks never
reached included), not the number of recorded results; and because the
stored result statuses are asdict-preserved `WorkflowStatus` Enum members
that `_generate_workflow_summary` compares against the enum's string
values — a comparison between different runtime types, never true —
`completed` and `failed` are always `0` whatever the recorded results,
and `success_rate` is always `0`. -/
theorem C1_success_rate_denominator (env : String → StepEnv)
    (engine : WorkflowEngine) (wid : String) (wf : Workflow) (s : WorkflowSummary)
    (hlk : engine.active_workflows.lookup wid = some wf)
    (hout : (execute_workflow env engine wid).1 = ExecuteOutput.summary s) :
    s.total_tasks = wf.tasks.length ∧ s.completed = 0 ∧ s.failed = 0 ∧
    s.success_rate = 0 := by
  have hfst := (execute_workflow_found env hlk).1
  rw [hout] at hfst
  have hs : s = generate_workflow_summary (run_workflow env wf) := by
    injection hfst
  subst hs
  refine ⟨?_, ?_, ?_, ?_⟩
  · show (run_workflow env wf).tasks.length = wf.tasks.length
    rw [run_workflow_tasks]
  · show ((run_workflow env wf).results.filter (fun p =>
        pyEq (PyVal.enumStatus p.2.status)
          (PyVal.str WorkflowStatus.completed.value))).length = 0
    rw [filter_pyEq_nil]
    rfl
  · show ((run_workflow env wf).results.filter (fun p =>
        pyEq (PyVal.enumStatus p.2.status)
          (PyVal.str WorkflowStatus.failed.value))).length = 0
    rw [filter_pyEq_nil]
    rfl
  · show (if 0 < (run_workflow env wf).tasks.length then
        pyRound1 ((((run_workflow env wf).results.filter (fun p =>
            pyEq (PyVal.enumStatus p.2.status)
              (PyVal.str WorkflowStatus.completed.value))).length : ℚ) /
          ((run_workflow env wf).tasks.length : ℚ) * 100) else 0) = 0
    rw [filter_pyEq_nil]
    simp [pyRound1_zero]

/-- C1 witness: the amended statement evaluated on a concrete successful
run of the web-server-diagnostic workflow — all four recorded results
have completed status, yet the summary counts zero of them. -/
theorem C1_witness :
    egSummary.total_tasks = egWf.tasks.length ∧ egSummary.completed = 0 ∧
    egSummary.failed = 0 ∧ egSummary.success_rate = 0 :=
  C1_success_rate_denominator egOkEnv egEngine "wf1" egWf egSummary rfl rfl

/-! ## Claim C2 — response correlation in `send_message` -/

/-- C2 counterexample: the claim says `send` only returns a frame whose
`response_to` names the request type. Sending an `EXECUTE_COMMAND`
request while the listener receives a frame answering
`GET_SERVER_STATUS` returns that stray frame anyway. -/
theorem C2_counterexample :
    send_message true [egStrayFrame] (execute_command_msg "srv1" "uptime") =
      some egStrayFrame ∧
    (execute_command_msg "srv1" "uptime").lookup "type" = some "EXECUTE_COMMAND" ∧
    egStrayFrame.lookup "response_to" ≠ some "EXECUTE_COMMAND" := by
  refine ⟨rfl, rfl, ?_⟩
  decide

/-- C2 (amended): a connected `send` returns the first frame the listener
receives that carries a `response_to` key at all — no comparison against
the request's type is made; every earlier frame lacks the key. -/
theorem C2_first_response_returned (inbound : List Frame) (message : Frame) (f : Frame)
    (h : send_message true inbound message = some f) :
    f.hasKey "response_to" = true ∧
    ∃ pre post, inbound = pre ++ f :: post ∧
      ∀ g ∈ pre, g.hasKey "response_to" = false := by
  have h2 : (inbound.filter (fun m => m.hasKey "response_to")).head? = some f := by
    simpa [send_message, listen_responses] using h
  exact head_of_filter h2

/-- C2 witness: the amended statement evaluated on the stray frame. -/
theorem C2_witness :
    egStrayFrame.hasKey "response_to" = true ∧
    ∃ pre post, [egStrayFrame] = pre ++ egStrayFrame :: post ∧
      ∀ g ∈ pre, g.hasKey "response_to" = false :=
  C2_first_response_returned [egStrayFrame] (execute_command_msg "srv1" "uptime")
    egStrayFrame rfl

/-! ## Claim C3 — dependency ordering and single results -/

/-- C3: in any run of `execute_workflow` on a freshly created workflow,
the recorded results are dependency-ordered — every dependency of a
recorded task already has a result earlier in the chronology — and no
task id is recorded twice. -/
theorem C3_dependency_ordering (env : String → StepEnv) (engine : WorkflowEngine)
    (wid : String) (wf wf2 : Workflow)
    (hlk : engine.active_workflows.lookup wid = some wf)
    (hres : wf.results = [])
    (hwf : ∀ p ∈ wf.tasks, p.2.id = p.1)
    (hnd : (keysOf wf.tasks).Nodup)
    (hlk2 : (execute_workflow env engine wid).2.active_workflows.lookup wid = some wf2) :
    depOrdered wf2.tasks wf2.results ∧ (keysOf wf2.results).Nodup := by
  have h2 := (execute_workflow_found env hlk).2
  rw [hlk2] at h2
  have hw : wf2 = run_workflow env wf := by injection h2
  subst hw
  obtain ⟨htasks, hord, hnd2, _, _, _, _, _⟩ := run_workflow_out env wf hres hwf hnd
  rw [htasks]
  exact ⟨hord, hnd2⟩

/-- C3 witness: the conclusion evaluated on a concrete successful run. -/
theorem C3_witness :
    depOrdered egWf2.tasks egWf2.results ∧ (keysOf egWf2.results).Nodup :=
  C3_dependency_ordering egOkEnv egEngine "wf1" egWf egWf2 rfl rfl
    (by decide) (by decide) rfl

/-! ## Claim C4 — stop on failed diagnostic task -/

/-- C4: in any run on a freshly created workflow, a recorded result that
is failed and belongs to a diagnostic-type task can only be the last
entry of the results chronology (the loop breaks immediately); and when
no internal fault occurs and no failed-diagnostic result was recorded,
the loop stopped only because no eligible task remained — failures of
non-diagnostic tasks do not halt the run. -/
theorem C4_stop_on_diagnostic_failure (env : String → StepEnv)
    (engine : WorkflowEngine) (wid : String) (wf wf2 : Workflow)
    (hlk : engine.active_workflows.lookup wid = some wf)
    (hres : wf.results = [])
    (hwf : ∀ p ∈ wf.tasks, p.2.id = p.1)
    (hnd : (keysOf wf.tasks).Nodup)
    (hlk2 : (execute_workflow env engine wid).2.active_workflows.lookup wid = some wf2) :
    (∀ i : Fin wf2.results.length, (i : ℕ) + 1 < wf2.results.length →
        isFailDiag wf2.tasks (wf2.results.get i) = false) ∧
    ((∀ s, (env s).storeFault = false) →
      (∀ p ∈ wf2.results, isFailDiag wf2.tasks p = false) →
      find_next_task wf2.tasks (keysOf wf2.results) = none) := by
  have h2 := (execute_workflow_found env hlk).2
  rw [hlk2] at h2
  have hw : wf2 = run_workflow env wf := by injection h2
  subst hw
  obtain ⟨htasks, _, _, _, hlast, _, _, hexh⟩ := run_workflow_out env wf hres hwf hnd
  rw [htasks]
  exact ⟨hlast, hexh⟩

/-- C4 witness: on a fully successful concrete run no entry is a failed
diagnostic and the graph is exhausted. -/
theorem C4_witness :
    (∀ i : Fin egWf2.results.length, (i : ℕ) + 1 < egWf2.results.length →
        isFailDiag egWf2.tasks (egWf2.results.get i) = false) ∧
    find_next_task egWf2.tasks (keysOf egWf2.results) = none := by
  have h := C4_stop_on_diagnostic_failure egOkEnv egEngine "wf1" egWf egWf2 rfl rfl
    (by decide) (by decide) rfl
  exact ⟨h.1, h.2 (fun _ => rfl) (by decide)⟩

/-! ## Claim C5 — terminal state and `current_task` -/

/-- C5 counterexample: the claim says `current_task` is cleared on the
internal-error path too. Injecting an audit-store fault during the first
task leaves the stored workflow with status `failed` and `current_task`
still set to that task. -/
theorem C5_counterexample :
    (((execute_workflow egFaultEnv egEngine "wf1").2.active_workflows.lookup "wf1").map
        (fun w => (w.status, w.current_task))) =
      some (WorkflowStatus.failed, some "check_service_status") ∧
    (some "check_service_status" : Option String) ≠ none := by
  refine ⟨rfl, ?_⟩
  decide

/-- C5 (amended): on a run without internal fault the stored workflow
ends `completed` with `current_task` cleared; on the internal-error path
the status is set to `failed` but `current_task` is not cleared — it
still names a task whose result was recorded. -/
theorem C5_terminal_current_task (env : String → StepEnv) (engine : WorkflowEngine)
    (wid : String) (wf wf2 : Workflow)
    (hlk : engine.active_workflows.lookup wid = some wf)
    (hres : wf.results = [])
    (hwf : ∀ p ∈ wf.tasks, p.2.id = p.1)
    (hnd : (keysOf wf.tasks).Nodup)
    (hlk2 : (execute_workflow env engine wid).2.active_workflows.lookup wid = some wf2) :
    ((∀ s, (env s).storeFault = false) →
        wf2.status = WorkflowStatus.completed ∧ wf2.current_task = none) ∧
    (wf2.status = WorkflowStatus.failed →
        ∃ k, wf2.current_task = some k ∧ k ∈ keysOf wf2.results) := by
  have h2 := (execute_workflow_found env hlk).2
  rw [hlk2] at h2
  have hw : wf2 = run_workflow env wf := by injection h2
  subst hw
  obtain ⟨_, _, _, _, _, hok, hfail, _⟩ := run_workflow_out env wf hres hwf hnd
  exact ⟨hok, hfail⟩

/-- C5 witness: the amended statement evaluated on a fault-free run and
on a faulting run. -/
theorem C5_witness :
    (egWf2.status = WorkflowStatus.completed ∧ egWf2.current_task = none) ∧
    (∃ k, egWfFault.current_task = some k ∧ k ∈ keysOf egWfFault.results) := by
  constructor
  · exact (C5_terminal_current_task egOkEnv egEngine "wf1" egWf egWf2 rfl rfl
      (by decide) (by decide) rfl).1 (fun _ => rfl)
  · exact (C5_terminal_current_task egFaultEnv egEngine "wf1" egWf egWfFault rfl rfl
      (by decide) (by decide) rfl).2 (by decide)

/-! ## Claim C6 — classification of transport responses -/

/-- C6: a non-empty response object carrying a `status` key (whatever its
value) yields a `completed` result whose output is the response's
`output` field (empty-string default); a missing or empty response yields
a `failed` result with the fixed error message and empty output. -/
theorem C6_response_classification (st : StepEnv) (task : WorkflowTask) :
    (∀ r : Frame, st.outcome = TransportOutcome.responds (some r) → r ≠ [] →
        (r.lookup "status").isSome = true →
        execute_task st task =
          { task_id := task.id, status := WorkflowStatus.completed,
            output := (r.lookup "output").getD "", error := none,
            execution_time := st.elapsed, timestamp := st.now }) ∧
    (∀ resp : Option Frame, st.outcome = TransportOutcome.responds resp →
        (resp = none ∨ resp = some ([] : Frame)) →
        execute_task st task =
          { task_id := task.id, status := WorkflowStatus.failed, output := "",
            error := some "No valid response from MCP client",
            execution_time := st.elapsed, timestamp := st.now }) := by
  constructor
  · intro r hout hne hst
    have hne2 : r.isEmpty = false := by
      cases r with
      | nil => exact absurd rfl hne
      | cons a l => rfl
    have hval : responseValid (some r) = true := by
      simp [responseValid, Frame.hasKey, hne2, hst]
    simp [execute_task, hout, hval, responseOutput]
  · intro resp hout hcase
    have hval : responseValid resp = false := by
      rcases hcase with h | h <;> subst h <;> rfl
    simp [execute_task, hout, hval]

/-- C6 witness: both branches evaluated on concrete responses — including
a response whose `status` value is `"error"`, still recorded `completed`. -/
theorem C6_witness :
    execute_task egStepRespond egTask =
      { task_id := egTask.id, status := WorkflowStatus.completed,
        output := (egErrStatusResp.lookup "output").getD "", error := none,
        execution_time := egStepRespond.elapsed, timestamp := egStepRespond.now } ∧
    execute_task egStepNone egTask =
      { task_id := egTask.id, status := WorkflowStatus.failed, output := "",
        error := some "No valid response from MCP client",
        execution_time := egStepNone.elapsed, timestamp := egStepNone.now } :=
  ⟨(C6_response_classification egStepRespond egTask).1 egErrStatusResp
      rfl (by decide) (by decide),
   (C6_response_classification egStepNone egTask).2 none rfl (Or.inl rfl)⟩

/-! ## Claim C7 — unknown template -/

/-- C7: `create_workflow` with an unrecognized template name returns
`false` and leaves the engine untouched, so (as long as no registered
instance already bore the id) the id does not appear in
`list_active_workflows`. -/
theorem C7_unknown_template (now : String) (engine : WorkflowEngine)
    (wid sid tname : String) (h : templateMap tname = none) :
    create_workflow now engine wid sid tname = (false, engine) ∧
    ((∀ q ∈ engine.active_workflows, q.2.id ≠ wid) →
      ∀ p ∈ list_active_workflows (create_workflow now engine wid sid tname).2,
        p.id ≠ wid) := by
  have h1 : create_workflow now engine wid sid tname = (false, engine) := by
    simp [create_workflow, h]
  refine ⟨h1, ?_⟩
  intro hq p hp
  rw [h1] at hp
  simp only [list_active_workflows, List.mem_map] at hp
  obtain ⟨q, hq1, hq2⟩ := hp
  cases hq2
  exact hq q hq1

/-- C7 witness: creating `"wf9"` from `"not_a_template"` on the example
engine fails and `"wf9"` is absent from the active listing. -/
theorem C7_witness :
    create_workflow egNow egEngine "wf9" "srv1" "not_a_template" = (false, egEngine) ∧
    ∀ p ∈ list_active_workflows
        (create_workflow egNow egEngine "wf9" "srv1" "not_a_template").2,
      p.id ≠ "wf9" := by
  have h := C7_unknown_template egNow egEngine "wf9" "srv1" "not_a_template" rfl
  exact ⟨h.1, h.2 (by decide)⟩

/-! ## Claim C8 — exceptions become failed results -/

/-- C8: an exception while issuing the request is converted into a
`failed` result carrying the exception's message and empty output, and
the measured elapsed time populates `execution_time` on every outcome. -/
theorem C8_exception_handling (st : StepEnv) (task : WorkflowTask) :
    (∀ msg, st.outcome = TransportOutcome.raises msg →
        execute_task st task =
          { task_id := task.id, status := WorkflowStatus.failed, output := "",
            error := some msg, execution_time := st.elapsed, timestamp := st.now }) ∧
    (execute_task st task).execution_time = st.elapsed := by
  refine ⟨?_, execute_task_time st task⟩
  intro msg hout
  simp [execute_task, hout]

/-- C8 witness: a concrete connection-refused exception. -/
theorem C8_witness :
    execute_task egStepRaise egTask =
      { task_id := egTask.id, status := WorkflowStatus.failed, output := "",
        error := some "Connection refused",
        execution_time := egStepRaise.elapsed, timestamp := egStepRaise.now } ∧
    (execute_task egStepRaise egTask).execution_time = egStepRaise.elapsed := by
  have h := C8_exception_handling egStepRaise egTask
  exact ⟨h.1 "Connection refused" rfl, h.2⟩

/-! ## Claim C9 — re-creation under an existing id -/

/-- C9: `create_workflow` with a recognized template and an id already in
the registry returns `true` and silently replaces the stored instance
with a fresh pending one — empty results, no current task — discarding
the previous instance. -/
theorem C9_recreate_resets (now : String) (engine : WorkflowEngine)
    (wid sid tname : String) (tasks : List WorkflowTask)
    (h : templateMap tname = some tasks)
    (hmem : wid ∈ keysOf engine.active_workflows) :
    (create_workflow now engine wid sid tname).1 = true ∧
    (create_workflow now engine wid sid tname).2.active_workflows.lookup wid =
      some { id := wid, server_id := sid, template := tname,
             status := WorkflowStatus.pending, tasks := taskMapOf tasks,
             results := [], created_at := now, current_task := none } := by
  constructor
  · simp [create_workflow, h]
  · simp only [create_workflow, h]
    exact lookup_dictInsert_self _ _ _

/-- C9 witness: re-creating `"wf1"` (already registered in the example
engine) from the system-health template succeeds and stores a fresh
pending instance. -/
theorem C9_witness :
    (create_workflow egNow egEngine "wf1" "srv2" "system_health_check").1 = true ∧
    (create_workflow egNow egEngine "wf1" "srv2" "system_health_check").2.active_workflows.lookup
        "wf1" =
      some { id := "wf1", server_id := "srv2", template := "system_health_check",
             status := WorkflowStatus.pending, tasks := taskMapOf system_health_check,
             results := [], created_at := egNow, current_task := none } :=
  C9_recreate_resets egNow egEngine "wf1" "srv2" "system_health_check"
    system_health_check rfl (by decide)

/-! ## Claim C10 — executing an unknown workflow id -/

/-- C10: `execute_workflow` on an id absent from the registry returns the
not-found error object and the engine — registry and every stored
instance — unchanged. -/
theorem C10_unknown_workflow (env : String → StepEnv) (engine : WorkflowEngine)
    (wid : String) (h : wid ∉ keysOf engine.active_workflows) :
    execute_workflow env engine wid = (ExecuteOutput.error "Workflow not found", engine) := by
  simp [execute_workflow, lookup_eq_none_of_not_mem h]

/-- C10 witness: executing the unregistered id `"missing"`. -/
theorem C10_witness :
    execute_workflow egOkEnv egEngine "missing" =
      (ExecuteOutput.error "Workflow not found", egEngine) :=
  C10_unknown_workflow egOkEnv egEngine "missing" (by decide)

end AiServerMgmt
